import Mathlib

/-!
Verification of the kickerapp match ledger, session state machine and season
closure logic (src/src/App.jsx), shallowly embedded in Lean 4.

Conventions of the embedding:
* Firestore player documents are modelled as a total map `String → Player`
  indexed by document id.
* JavaScript numbers holding ratings are integers in this code base
  (ratings start at 1500 and move by integer deltas), so `score : ℤ`;
  team averages, which may be half-integral, are computed in `ℚ`.
* `Math.round` is round-half-up, i.e. `⌊x + 1/2⌋`.
* React `useState` updates plus the `useEffect` winner re-evaluation of
  `GameScreen` are modelled as one synchronous step function; the effect
  reaches a fixpoint after a single application (`recomputeWinner`).
-/

namespace Kicker

/-- Playing position of a player, as stored in each goal-log entry. -/
inductive Pos where
  | striker
  | defender
deriving DecidableEq, Repr

/-- Logical team identity (`"team1"` / `"team2"` keys in the source). -/
inductive TeamKey where
  | team1
  | team2
deriving DecidableEq, Repr

/-- A player document (collection `players`).  Fields are exactly the ones
`handleAddPlayer` initialises, plus `seasonsWon` which the source reads with
`(winner.seasonsWon || 0)`. -/
structure Player where
  id : String
  firstName : String
  lastName : String
  score : ℤ
  gamesWon : ℕ
  gamesLost : ℕ
  gamesAsStriker : ℕ
  gamesAsDefender : ℕ
  totalGames : ℕ
  goalsAsStriker : ℕ
  goalsAsDefender : ℕ
  shutoutWins : ℕ
  totalPlaytime : ℕ
  seasonsWon : ℕ
deriving DecidableEq, Repr

/-- One goal-log entry: `{ player, position, teamKey }` in `handleGoal`. -/
structure GoalEntry where
  player : Player
  position : Pos
  teamKey : TeamKey
deriving DecidableEq, Repr

/-- A `{striker, defender}` pair of players. -/
structure TeamSlots where
  striker : Player
  defender : Player
deriving DecidableEq, Repr

/-- The in-memory state of `GameScreen`: both team rosters, the score, the
append-only goal log, the display swap flag and the provisional winner. -/
structure GameState where
  team1 : TeamSlots
  team2 : TeamSlots
  score1 : ℤ
  score2 : ℤ
  goalHistory : List GoalEntry
  isSwapped : Bool
  winner : Option TeamKey
deriving DecidableEq, Repr

/-- The data `confirmWin` hands to `onGameEnd`: winner, end-of-match team
objects, final score, goal log and elapsed duration. -/
structure MatchSummary where
  winner : Option TeamKey
  team1 : TeamSlots
  team2 : TeamSlots
  score1 : ℤ
  score2 : ℤ
  goalHistory : List GoalEntry
  duration : ℕ
deriving DecidableEq, Repr

/-- Source helper `clamp(n, min, max) = Math.max(min, Math.min(max, n))`. -/
def clamp (n lo hi : ℤ) : ℤ := max lo (min hi n)

/-- JavaScript `Math.round`: round half up. -/
def jsRound (x : ℚ) : ℤ := ⌊x + 1 / 2⌋

/-- The `computeScoreChange` formula from App.jsx lines 49–57: dynamic delta
`round(10 + (avgLoser - avgWinner)/40)` clamped to `[1, 20]`, plus a
shutout bonus of 5 on the winner's side only. -/
def computeScoreChange (avgWinnerScore avgLoserScore : ℚ) (isShutout : Bool) :
    ℤ × ℤ :=
  let base : ℚ := 10
  let diff : ℚ := avgLoserScore - avgWinnerScore
  let dynamic : ℤ := clamp (jsRound (base + diff / 40)) 1 20
  let shutoutBonus : ℤ := if isShutout then 5 else 0
  (dynamic + shutoutBonus, dynamic)

/-- The `winningScoreFor` threshold from App.jsx lines 59–63: play to 7 on a 5:5 deuce,
otherwise to 6. -/
def winningScoreFor (team1 team2 : ℤ) : ℤ :=
  if team1 = 5 ∧ team2 = 5 then 7 else 6

/-- The `useEffect` of `GameScreen` (lines 329–336) re-evaluating the winner
after every score change: declare the higher-scoring team once a team meets
the recomputed threshold, and clear a declared winner once neither does. -/
def recomputeWinner (winner : Option TeamKey) (s1 s2 : ℤ) : Option TeamKey :=
  let ws := winningScoreFor s1 s2
  match winner with
  | none =>
      if ws ≤ s1 ∨ ws ≤ s2 then
        some (if s2 < s1 then TeamKey.team1 else TeamKey.team2)
      else none
  | some t => if s1 < ws ∧ s2 < ws then none else some t

/-- Source `handleGoal` (lines 338–345): attribute the goal to team 1 when the
scorer occupies a team-1 slot, bump that team's score, append the goal-log
entry, then let the effect re-evaluate the winner. -/
def handleGoal (st : GameState) (p : Player) (pos : Pos) : GameState :=
  let teamKey :=
    if p.id = st.team1.striker.id ∨ p.id = st.team1.defender.id then
      TeamKey.team1
    else TeamKey.team2
  let s1 := if teamKey = TeamKey.team1 then st.score1 + 1 else st.score1
  let s2 := if teamKey = TeamKey.team2 then st.score2 + 1 else st.score2
  { st with
    score1 := s1
    score2 := s2
    goalHistory := st.goalHistory ++ [⟨p, pos, teamKey⟩]
    winner := recomputeWinner st.winner s1 s2 }

/-- Source `handleUndoGoal` (lines 347–354): no-op on an empty log; otherwise pop
the last entry, decrement its team's score floored at 0, and let the effect
re-evaluate the winner. -/
def handleUndoGoal (st : GameState) : GameState :=
  match st.goalHistory.getLast? with
  | none => st
  | some last =>
      let s1 :=
        if last.teamKey = TeamKey.team1 then max 0 (st.score1 - 1) else st.score1
      let s2 :=
        if last.teamKey = TeamKey.team2 then max 0 (st.score2 - 1) else st.score2
      { st with
        goalHistory := st.goalHistory.dropLast
        score1 := s1
        score2 := s2
        winner := recomputeWinner st.winner s1 s2 }

/-- Variant of `handleUndoGoal` without the `Math.max(0, ·)` floor, used to
state that the floor never changes a reachable decrement. -/
def handleUndoGoalNoFloor (st : GameState) : GameState :=
  match st.goalHistory.getLast? with
  | none => st
  | some last =>
      let s1 := if last.teamKey = TeamKey.team1 then st.score1 - 1 else st.score1
      let s2 := if last.teamKey = TeamKey.team2 then st.score2 - 1 else st.score2
      { st with
        goalHistory := st.goalHistory.dropLast
        score1 := s1
        score2 := s2
        winner := recomputeWinner st.winner s1 s2 }

/-- Source `swapPositions` (lines 356–359): exchange striker and defender within
one team. -/
def swapPositions (st : GameState) (t : TeamKey) : GameState :=
  match t with
  | TeamKey.team1 =>
      { st with team1 := ⟨st.team1.defender, st.team1.striker⟩ }
  | TeamKey.team2 =>
      { st with team2 := ⟨st.team2.defender, st.team2.striker⟩ }

/-- Source `setIsSwapped(s => !s)` (line 404): display-only side swap. -/
def toggleSides (st : GameState) : GameState :=
  { st with isSwapped := !st.isSwapped }

/-- Source `confirmWin` (lines 361–364): unconditionally hand the current winner,
teams, score, goal log and duration to `onGameEnd` — there is no state
check and no error path. -/
def confirmWin (st : GameState) (duration : ℕ) : MatchSummary :=
  ⟨st.winner, st.team1, st.team2, st.score1, st.score2, st.goalHistory,
    duration⟩

/-- Operations the UI can invoke on a live match session. -/
inductive Op where
  | goal (p : Player) (pos : Pos)
  | undo
  | swapPos (t : TeamKey)
  | swapSides
deriving Repr

/-- One UI-driven step of the match session. -/
def stepGame (st : GameState) : Op → GameState
  | Op.goal p pos => handleGoal st p pos
  | Op.undo => handleUndoGoal st
  | Op.swapPos t => swapPositions st t
  | Op.swapSides => toggleSides st

/-- Initial `GameScreen` state: score 0:0, empty log, no winner. -/
def initGame (t1 t2 : TeamSlots) : GameState :=
  ⟨t1, t2, 0, 0, [], false, none⟩

/-- Run a sequence of session operations from a state. -/
def runGame (st : GameState) (ops : List Op) : GameState :=
  ops.foldl stepGame st

/-- One goal as persisted inside a match record (lines 865–870). -/
structure RecordedGoal where
  i : ℕ
  playerId : String
  position : Pos
  teamKey : TeamKey
deriving DecidableEq, Repr

/-- The immutable match record `handleGameEnd` inserts (lines 849–871),
without the server-assigned timestamp. -/
structure MatchRecord where
  duration : ℕ
  score1 : ℤ
  score2 : ℤ
  winner : Option TeamKey
  team1StrikerId : String
  team1DefenderId : String
  team2StrikerId : String
  team2DefenderId : String
  goals : List RecordedGoal
deriving DecidableEq, Repr

/-- The player record `handleAddPlayer` creates (lines 729–743); `seasonsWon`
is absent in the document and reads back as 0. -/
def handleAddPlayer (id firstName lastName : String) : Player :=
  { id := id
    firstName := firstName
    lastName := lastName
    score := 1500
    gamesWon := 0
    gamesLost := 0
    gamesAsStriker := 0
    gamesAsDefender := 0
    totalGames := 0
    goalsAsStriker := 0
    goalsAsDefender := 0
    shutoutWins := 0
    totalPlaytime := 0
    seasonsWon := 0 }

/-- The `goalsByPlayer` tally of `handleGameEnd` (lines 815–820): number of
goal-log entries scored by the given player id, regardless of position. -/
def goalsByPlayer (goalHistory : List GoalEntry) (pid : String) : ℕ :=
  (goalHistory.filter fun g => g.player.id = pid).length

/-- Source `applyStats` (lines 822–840): the per-player update of one ledger
commit.  `position` is the slot ("striker"/"defender") the player occupies
in the end-of-match team object, and `goals` the player's total tally. -/
def applyStats (p : Player) (didWin : Bool) (position : Pos) (goals : ℕ)
    (winDelta loseDelta : ℤ) (isShutout : Bool) (duration : ℕ) : Player :=
  let inc : ℤ := if didWin then winDelta else -loseDelta
  let p1 :=
    { p with
      totalGames := p.totalGames + 1
      score := p.score + inc
      totalPlaytime := p.totalPlaytime + duration }
  let p2 :=
    match position with
    | Pos.striker =>
        { p1 with
          gamesAsStriker := p1.gamesAsStriker + 1
          goalsAsStriker := p1.goalsAsStriker + goals }
    | Pos.defender =>
        { p1 with
          gamesAsDefender := p1.gamesAsDefender + 1
          goalsAsDefender := p1.goalsAsDefender + goals }
  if didWin then
    { p2 with
      gamesWon := p2.gamesWon + 1
      shutoutWins := p2.shutoutWins + (if isShutout then 1 else 0) }
  else { p2 with gamesLost := p2.gamesLost + 1 }

/-- Point update of the player store at one document id. -/
def updateStore (store : String → Player) (id : String) (p : Player) :
    String → Player :=
  fun k => if k = id then p else store k

/-- Average team rating from two freshly read player documents:
`(freshTeam.striker.score + freshTeam.defender.score) / 2` (lines 811–812). -/
def teamAvg (striker defender : Player) : ℚ :=
  ((striker.score : ℚ) + (defender.score : ℚ)) / 2

/-- The transaction body of `handleGameEnd` (lines 784–881).  `store` is the
player collection at commit time; the four participants are re-read from it
by id (`tx.get`, inlined at each use), team averages and deltas are
recomputed from those fresh ratings, and the four documents are updated with
`applyStats` using each player's slot in the end-of-match team objects.
Returns the updated store and the inserted match record. -/
def handleGameEnd (store : String → Player) (winner : Option TeamKey)
    (team1 team2 : TeamSlots) (score1 score2 : ℤ)
    (goalHistory : List GoalEntry) (duration : ℕ) :
    (String → Player) × MatchRecord :=
  let isTeam1Win : Bool := winner = some TeamKey.team1
  let losingTeamScore := if isTeam1Win then score2 else score1
  let isShutout : Bool := losingTeamScore = 0
  let avgWinner : ℚ :=
    if isTeam1Win then
      teamAvg (store team1.striker.id) (store team1.defender.id)
    else teamAvg (store team2.striker.id) (store team2.defender.id)
  let avgLoser : ℚ :=
    if isTeam1Win then
      teamAvg (store team2.striker.id) (store team2.defender.id)
    else teamAvg (store team1.striker.id) (store team1.defender.id)
  let d := computeScoreChange avgWinner avgLoser isShutout
  let didWin2 : Bool := winner = some TeamKey.team2
  let s1 := updateStore store team1.striker.id
    (applyStats (store team1.striker.id) isTeam1Win Pos.striker
      (goalsByPlayer goalHistory team1.striker.id) d.1 d.2 isShutout duration)
  let s2 := updateStore s1 team1.defender.id
    (applyStats (store team1.defender.id) isTeam1Win Pos.defender
      (goalsByPlayer goalHistory team1.defender.id) d.1 d.2 isShutout duration)
  let s3 := updateStore s2 team2.striker.id
    (applyStats (store team2.striker.id) didWin2 Pos.striker
      (goalsByPlayer goalHistory team2.striker.id) d.1 d.2 isShutout duration)
  let s4 := updateStore s3 team2.defender.id
    (applyStats (store team2.defender.id) didWin2 Pos.defender
      (goalsByPlayer goalHistory team2.defender.id) d.1 d.2 isShutout duration)
  let record : MatchRecord :=
    { duration := duration
      score1 := score1
      score2 := score2
      winner := winner
      team1StrikerId := team1.striker.id
      team1DefenderId := team1.defender.id
      team2StrikerId := team2.striker.id
      team2DefenderId := team2.defender.id
      goals := goalHistory.enum.map fun ig =>
        ⟨ig.1, ig.2.player.id, ig.2.position, ig.2.teamKey⟩ }
  (s4, record)

/-- Commit the summary handed over by `confirmWin`. -/
def commitSummary (store : String → Player) (sm : MatchSummary) :
    (String → Player) × MatchRecord :=
  handleGameEnd store sm.winner sm.team1 sm.team2 sm.score1 sm.score2
    sm.goalHistory sm.duration

/-- A season-history document (collection `seasonHistory`, lines 893–898),
without the server-assigned end date. -/
structure SeasonRecord where
  seasonNumber : ℕ
  winnerName : String
  winnerId : String
deriving DecidableEq, Repr

/-- The persisted state season closure touches: the player collection, the
season-history collection and the `appState/config` season counter. -/
structure SeasonState where
  players : List Player
  history : List SeasonRecord
  currentSeason : ℕ
deriving DecidableEq, Repr

/-- Insertion step of `[...players].sort((a, b) => b.score - a.score)`:
place `p` before the first element with a strictly smaller score. -/
def insertByScore (p : Player) : List Player → List Player
  | [] => [p]
  | q :: qs =>
      if q.score < p.score then p :: q :: qs else q :: insertByScore p qs

/-- Sort players by rating, descending (line 890). -/
def sortByScoreDesc (ps : List Player) : List Player :=
  ps.foldr insertByScore []

/-- Whether the `k`-th sequential await of `handleCloseSeason` succeeds,
given an injected failure point (`none` = no failure; `some f` = the `f`-th
await throws, skipping it and every later one via the shared catch). -/
def stepOk (failAt : Option ℕ) (k : ℕ) : Bool :=
  match failAt with
  | none => true
  | some f => k < f

/-- Step 1 of `handleCloseSeason` (lines 893–898): append the season-history
record naming the pre-closure top-rated player. -/
def seasonAppendHistory (winner : Player) (st : SeasonState) : SeasonState :=
  { st with
    history := st.history ++
      [{ seasonNumber := st.currentSeason
         winnerName := winner.firstName ++ " " ++ winner.lastName
         winnerId := winner.id }] }

/-- Step 2 (lines 900–902): write `seasonsWon := (winner.seasonsWon || 0) + 1`
to the winner's document. -/
def seasonBumpWinner (winner : Player) (st : SeasonState) : SeasonState :=
  { st with
    players := st.players.map fun p =>
      if p.id = winner.id then { p with seasonsWon := winner.seasonsWon + 1 }
      else p }

/-- Step 3 (lines 904–909): batch-reset every player's rating to 1500. -/
def seasonResetScores (st : SeasonState) : SeasonState :=
  { st with players := st.players.map fun p => { p with score := 1500 } }

/-- Step 4 (lines 911–913): write `currentSeason := (currentSeason || 1) + 1`
to the app-state document. -/
def seasonAdvanceCounter (st : SeasonState) : SeasonState :=
  { st with
    currentSeason := (if st.currentSeason = 0 then 1 else st.currentSeason) + 1 }

/-- Source `handleCloseSeason` (lines 888–917): early-return on an empty player
set; otherwise pick the head of the descending sort as winner and run the
four persistence writes sequentially.  The writes share one `try`/`catch`
but no transaction, so a failure at await `f` (modelled by `failAt`) leaves
exactly the effects of the earlier awaits applied. -/
def handleCloseSeason (st : SeasonState) (failAt : Option ℕ) : SeasonState :=
  match (sortByScoreDesc st.players).head? with
  | none => st
  | some winner =>
      let st1 := if stepOk failAt 0 then seasonAppendHistory winner st else st
      let st2 := if stepOk failAt 1 then seasonBumpWinner winner st1 else st1
      let st3 := if stepOk failAt 2 then seasonResetScores st2 else st2
      if stepOk failAt 3 then seasonAdvanceCounter st3 else st3

/-- Modelled from the spec (§4.1), for comparison with the source formula:
`dynamic = round(10 + (avgLoser - avgWinner)/40)` clamped to `[1, 20]`,
`winDelta = dynamic + (5 if isShutout else 0)`, `loseDelta = dynamic`. -/
def ratingSpecDelta (avgWinner avgLoser : ℚ) (isShutout : Bool) : ℤ × ℤ :=
  let dynamic := clamp (jsRound (10 + (avgLoser - avgWinner) / 40)) 1 20
  (dynamic + (if isShutout then 5 else 0), dynamic)

/-! Concrete fixtures used by witnesses and counterexamples. -/

/-- Example player occupying the team-1 striker slot at match start. -/
def pA : Player := handleAddPlayer "a" "Ana" "Arm"

/-- Example player occupying the team-1 defender slot at match start. -/
def pB : Player := handleAddPlayer "b" "Ben" "Bos"

/-- Example player occupying the team-2 striker slot at match start. -/
def pC : Player := handleAddPlayer "c" "Cem" "Col"

/-- Example player occupying the team-2 defender slot at match start. -/
def pD : Player := handleAddPlayer "d" "Dan" "Dix"

/-- Example player store holding the four example players. -/
def exStore : String → Player := fun id =>
  if id = "a" then pA
  else if id = "b" then pB
  else if id = "c" then pC
  else pD

/-- Example match: player `a` scores once as striker, team 1 swaps
positions, then `a` scores five more times as defender; team 1 wins 6:0. -/
def exOps : List Op :=
  [Op.goal pA Pos.striker, Op.swapPos TeamKey.team1,
   Op.goal pA Pos.defender, Op.goal pA Pos.defender, Op.goal pA Pos.defender,
   Op.goal pA Pos.defender, Op.goal pA Pos.defender]

/-- End state of the example match. -/
def exEnd : GameState := runGame (initGame ⟨pA, pB⟩ ⟨pC, pD⟩) exOps

/-! Helper lemmas about the winner re-evaluation effect. -/

/-- With no winner declared, a score meeting the recomputed threshold while
the other side is below it declares team 1. -/
theorem recomputeWinner_team1 {s1 s2 : ℤ}
    (h1 : winningScoreFor s1 s2 ≤ s1) (h2 : s2 < winningScoreFor s1 s2) :
    recomputeWinner none s1 s2 = some TeamKey.team1 := by
  have hlt : s2 < s1 := lt_of_lt_of_le h2 h1
  simp [recomputeWinner, h1, hlt]

/-- With no winner declared, a score meeting the recomputed threshold while
the other side is below it declares team 2. -/
theorem recomputeWinner_team2 {s1 s2 : ℤ}
    (h1 : winningScoreFor s1 s2 ≤ s2) (h2 : s1 < winningScoreFor s1 s2) :
    recomputeWinner none s1 s2 = some TeamKey.team2 := by
  have hlt : ¬s2 < s1 := not_lt.mpr (le_of_lt (lt_of_lt_of_le h2 h1))
  simp [recomputeWinner, h1, hlt]

/-- When neither team meets the recomputed threshold, the effect leaves no
winner declared, clearing any previous one. -/
theorem recomputeWinner_eq_none {w : Option TeamKey} {s1 s2 : ℤ}
    (h1 : s1 < winningScoreFor s1 s2) (h2 : s2 < winningScoreFor s1 s2) :
    recomputeWinner w s1 s2 = none := by
  have h1' : ¬winningScoreFor s1 s2 ≤ s1 := not_le.mpr h1
  have h2' : ¬winningScoreFor s1 s2 ≤ s2 := not_le.mpr h2
  cases w with
  | none => simp [recomputeWinner, h1', h2']
  | some t => simp [recomputeWinner, h1, h2]

/-! Claim theorems. -/

/-- C3: for all average ratings `r1` (winner side), `r2` (loser side) and
every shutout flag `s`, `computeScoreChange r1 r2 s` equals the spec
formula — `dynamic = round(10 + (r2 - r1)/40)` clamped to `[1, 20]`,
`winDelta = dynamic + (5 if s else 0)`, `loseDelta = dynamic` — and in
particular `(1500, 1500, false) ↦ (10, 10)`, `(1700, 1300, false) ↦ (1, 1)`
and `(1700, 1300, true) ↦ (6, 1)`.  As a Lean function it is deterministic
and side-effect free. -/
theorem computeScoreChange_matches_spec (r1 r2 : ℚ) (s : Bool) :
    computeScoreChange r1 r2 s = ratingSpecDelta r1 r2 s ∧
    computeScoreChange 1500 1500 false = (10, 10) ∧
    computeScoreChange 1700 1300 false = (1, 1) ∧
    computeScoreChange 1700 1300 true = (6, 1) := by
  refine ⟨rfl, ?_, ?_, ?_⟩ <;>
    norm_num [computeScoreChange, jsRound, clamp]

/-- C5: the win threshold consulted is 7 exactly when both scores are 5 and
6 otherwise (so reaching 5:5 raises the target from 6 to 7), and a goal
that brings one team to the recomputed threshold while the other team is
still strictly below it declares that team the provisional winner. -/
theorem winningScore_dynamic_and_first_to_threshold
    (s1 s2 : ℤ) (st : GameState) (p : Player) (pos : Pos) :
    winningScoreFor 5 5 = 7 ∧
    (¬(s1 = 5 ∧ s2 = 5) → winningScoreFor s1 s2 = 6) ∧
    (st.winner = none →
      let st' := handleGoal st p pos
      let ws' := winningScoreFor st'.score1 st'.score2
      ((ws' ≤ st'.score1 ∧ st'.score2 < ws') →
        st'.winner = some TeamKey.team1) ∧
      ((ws' ≤ st'.score2 ∧ st'.score1 < ws') →
        st'.winner = some TeamKey.team2)) := by
  refine ⟨by simp [winningScoreFor], fun h => by simp [winningScoreFor, h], ?_⟩
  intro hw
  have hwin :
      (handleGoal st p pos).winner =
        recomputeWinner st.winner (handleGoal st p pos).score1
          (handleGoal st p pos).score2 := rfl
  refine ⟨fun hc => ?_, fun hc => ?_⟩
  · rw [hwin, hw]
    exact recomputeWinner_team1 hc.1 hc.2
  · rw [hwin, hw]
    exact recomputeWinner_team2 hc.1 hc.2

/-- C5 witness: at 5:5 with no winner a goal by the team-1 striker makes it
6:5 with threshold 6, and team 1 is declared provisional winner. -/
theorem winningScore_dynamic_witness :
    let st : GameState := ⟨⟨pA, pB⟩, ⟨pC, pD⟩, 5, 5, [], false, none⟩
    let st' := handleGoal st pA Pos.striker
    st'.score1 = 6 ∧ st'.score2 = 5 ∧ st'.winner = some TeamKey.team1 := by
  refine ⟨by decide, by decide, ?_⟩
  exact ((winningScore_dynamic_and_first_to_threshold 6 5
      ⟨⟨pA, pB⟩, ⟨pC, pD⟩, 5, 5, [], false, none⟩ pA Pos.striker).2.2
      (by decide)).1 (by decide)

/-- C6: from any session state, undo on an empty goal log is a no-op;
otherwise undo pops the last entry, decrements that entry's team's score
floored at 0, and — whenever neither team still meets the recomputed
threshold afterwards — leaves the session back in play with no declared
winner. -/
theorem handleUndoGoal_spec (st : GameState) :
    (st.goalHistory = [] → handleUndoGoal st = st) ∧
    (∀ last, st.goalHistory.getLast? = some last →
      (handleUndoGoal st).goalHistory = st.goalHistory.dropLast ∧
      (handleUndoGoal st).score1 =
        (if last.teamKey = TeamKey.team1 then max 0 (st.score1 - 1)
         else st.score1) ∧
      (handleUndoGoal st).score2 =
        (if last.teamKey = TeamKey.team2 then max 0 (st.score2 - 1)
         else st.score2) ∧
      ((handleUndoGoal st).score1 <
          winningScoreFor (handleUndoGoal st).score1 (handleUndoGoal st).score2 ∧
        (handleUndoGoal st).score2 <
          winningScoreFor (handleUndoGoal st).score1 (handleUndoGoal st).score2 →
        (handleUndoGoal st).winner = none)) := by
  constructor
  · intro h
    simp [handleUndoGoal, h]
  · intro last hlast
    have hG : (handleUndoGoal st).goalHistory = st.goalHistory.dropLast := by
      simp [handleUndoGoal, hlast]
    have h1 : (handleUndoGoal st).score1 =
        (if last.teamKey = TeamKey.team1 then max 0 (st.score1 - 1)
         else st.score1) := by
      simp [handleUndoGoal, hlast]
    have h2 : (handleUndoGoal st).score2 =
        (if last.teamKey = TeamKey.team2 then max 0 (st.score2 - 1)
         else st.score2) := by
      simp [handleUndoGoal, hlast]
    refine ⟨hG, h1, h2, ?_⟩
    intro hlt
    have hwin : (handleUndoGoal st).winner =
        recomputeWinner st.winner (handleUndoGoal st).score1
          (handleUndoGoal st).score2 := by
      simp [handleUndoGoal, hlast]
    rw [hwin]
    exact recomputeWinner_eq_none hlt.1 hlt.2

/-- C6 witness: a reachable 6:3 state with team 1 provisionally winning at
threshold 6 becomes 5:3 with the winner cleared after one undo. -/
theorem handleUndoGoal_spec_witness :
    let st := runGame (initGame ⟨pA, pB⟩ ⟨pC, pD⟩)
      [Op.goal pA Pos.striker, Op.goal pA Pos.striker, Op.goal pA Pos.striker,
       Op.goal pA Pos.striker, Op.goal pA Pos.striker, Op.goal pC Pos.striker,
       Op.goal pC Pos.striker, Op.goal pC Pos.striker, Op.goal pA Pos.striker]
    st.score1 = 6 ∧ st.score2 = 3 ∧ st.winner = some TeamKey.team1 ∧
    (handleUndoGoal st).score1 = 5 ∧ (handleUndoGoal st).score2 = 3 ∧
    (handleUndoGoal st).winner = none := by
  intro st
  have h := (handleUndoGoal_spec st).2
    ⟨pA, Pos.striker, TeamKey.team1⟩ (by decide)
  refine ⟨by decide, by decide, by decide, by decide, by decide, ?_⟩
  exact h.2.2.2 (by decide)

/-! Score/goal-log invariant of the session state machine. -/

/-- Number of goal-log entries attributed to team `k`. -/
def countKey (k : TeamKey) (l : List GoalEntry) : ℕ :=
  (l.filter fun g => g.teamKey = k).length

/-- Each team's score equals the number of its goal-log entries. -/
def scoreInv (st : GameState) : Prop :=
  st.score1 = countKey TeamKey.team1 st.goalHistory ∧
  st.score2 = countKey TeamKey.team2 st.goalHistory

theorem countKey_append (k : TeamKey) (l : List GoalEntry) (e : GoalEntry) :
    countKey k (l ++ [e]) =
      countKey k l + (if e.teamKey = k then 1 else 0) := by
  by_cases he : e.teamKey = k <;> simp [countKey, List.filter_append, he]

theorem scoreInv_step (st : GameState) (op : Op) (h : scoreInv st) :
    scoreInv (stepGame st op) := by
  obtain ⟨h1, h2⟩ := h
  cases op with
  | goal p pos =>
      by_cases hc : p.id = st.team1.striker.id ∨ p.id = st.team1.defender.id
      · constructor <;>
          simp [stepGame, handleGoal, hc, countKey_append, h1, h2]
      · constructor <;>
          simp [stepGame, handleGoal, hc, countKey_append, h1, h2]
  | undo =>
      cases hlast : st.goalHistory.getLast? with
      | none => simpa [stepGame, handleUndoGoal, hlast] using ⟨h1, h2⟩
      | some last =>
          have hdec : st.goalHistory.dropLast ++ [last] = st.goalHistory :=
            List.dropLast_append_getLast? last (by simp [hlast])
          have hc1 : countKey TeamKey.team1 st.goalHistory =
              countKey TeamKey.team1 st.goalHistory.dropLast +
                (if last.teamKey = TeamKey.team1 then 1 else 0) := by
            conv_lhs => rw [← hdec]
            rw [countKey_append]
          have hc2 : countKey TeamKey.team2 st.goalHistory =
              countKey TeamKey.team2 st.goalHistory.dropLast +
                (if last.teamKey = TeamKey.team2 then 1 else 0) := by
            conv_lhs => rw [← hdec]
            rw [countKey_append]
          cases hk : last.teamKey with
          | team1 =>
              rw [hk] at hc1 hc2
              simp only [if_pos rfl, reduceCtorEq, if_neg] at hc1 hc2
              constructor <;>
                · simp only [stepGame, handleUndoGoal, hlast, hk, scoreInv]
                  simp [h1, h2, hc1, hc2]
          | team2 =>
              rw [hk] at hc1 hc2
              simp only [if_pos rfl, reduceCtorEq, if_neg] at hc1 hc2
              constructor <;>
                · simp only [stepGame, handleUndoGoal, hlast, hk, scoreInv]
                  simp [h1, h2, hc1, hc2]
  | swapPos t => cases t <;> simpa [stepGame, swapPositions] using ⟨h1, h2⟩
  | swapSides => simpa [stepGame, toggleSides] using ⟨h1, h2⟩

theorem scoreInv_runGame (ops : List Op) (st : GameState) (h : scoreInv st) :
    scoreInv (runGame st ops) := by
  induction ops generalizing st with
  | nil => simpa [runGame] using h
  | cons op ops ih =>
      have hstep := scoreInv_step st op h
      simpa [runGame] using ih (stepGame st op) hstep

/-- C10: in every session state reachable from the initial state by goals,
undos and swaps, each team's score equals the number of goal-log entries
carrying its team key; hence scores are never negative, and the
`Math.max(0, ·)` floor in undo never changes the result of the decrement
(undo agrees with its floorless variant on every reachable state). -/
theorem score_matches_goal_log (t1 t2 : TeamSlots) (ops : List Op) :
    let st := runGame (initGame t1 t2) ops
    (st.score1 = countKey TeamKey.team1 st.goalHistory ∧
      st.score2 = countKey TeamKey.team2 st.goalHistory) ∧
    0 ≤ st.score1 ∧ 0 ≤ st.score2 ∧
    handleUndoGoal st = handleUndoGoalNoFloor st := by
  intro st
  have hinit : scoreInv (initGame t1 t2) := by
    constructor <;> simp [initGame, countKey]
  have hinv : scoreInv st := scoreInv_runGame ops (initGame t1 t2) hinit
  obtain ⟨h1, h2⟩ := hinv
  refine ⟨⟨h1, h2⟩, by simp [h1], by simp [h2], ?_⟩
  cases hlast : st.goalHistory.getLast? with
  | none => simp [handleUndoGoal, handleUndoGoalNoFloor, hlast]
  | some last =>
      have hdec : st.goalHistory.dropLast ++ [last] = st.goalHistory :=
        List.dropLast_append_getLast? last (by simp [hlast])
      cases hk : last.teamKey with
      | team1 =>
          have hcnt : countKey TeamKey.team1 st.goalHistory =
              countKey TeamKey.team1 st.goalHistory.dropLast + 1 := by
            conv_lhs => rw [← hdec]
            rw [countKey_append]
            simp [hk]
          have hge : 1 ≤ st.score1 := by
            rw [h1, hcnt]
            push_cast
            omega
          have hmax : max 0 (st.score1 - 1) = st.score1 - 1 := by omega
          simp [handleUndoGoal, handleUndoGoalNoFloor, hlast, hk, hmax]
      | team2 =>
          have hcnt : countKey TeamKey.team2 st.goalHistory =
              countKey TeamKey.team2 st.goalHistory.dropLast + 1 := by
            conv_lhs => rw [← hdec]
            rw [countKey_append]
            simp [hk]
          have hge : 1 ≤ st.score2 := by
            rw [h2, hcnt]
            push_cast
            omega
          have hmax : max 0 (st.score2 - 1) = st.score2 - 1 := by omega
          simp [handleUndoGoal, handleUndoGoalNoFloor, hlast, hk, hmax]

/-- C1: the goal log of the example match attributes to player `a` one goal
scored as striker and five scored as defender, but the committed stats
credit all six goals to `a`'s end-of-match slot (defender):
`goalsAsStriker` increases by 0 and `goalsAsDefender` by 6, because
`applyStats` receives each player's end-of-match position and the total
per-player tally, ignoring the positions recorded in the goal-log
entries. -/
theorem goal_attribution_uses_end_position :
    (exEnd.goalHistory.filter fun g =>
        g.player.id = "a" ∧ g.position = Pos.striker).length = 1 ∧
    (exEnd.goalHistory.filter fun g =>
        g.player.id = "a" ∧ g.position = Pos.defender).length = 5 ∧
    exEnd.winner = some TeamKey.team1 ∧
    exEnd.team1 = ⟨pB, pA⟩ ∧
    (exStore "a").goalsAsStriker = 0 ∧
    (exStore "a").goalsAsDefender = 0 ∧
    ((commitSummary exStore (confirmWin exEnd 60)).1 "a").goalsAsStriker = 0 ∧
    ((commitSummary exStore (confirmWin exEnd 60)).1 "a").goalsAsDefender = 6 := by
  decide

/-- C7 counterexample: from the state reached by a single team-1 goal the
session is still in play (`winner = none`), yet `confirmWin` is not
rejected: it produces a full `MatchSummary` (with `winner = none`), and
committing that summary mutates the player records — every participant,
including the leading team, is charged a loss. -/
theorem confirm_in_playing_not_rejected :
    let st := runGame (initGame ⟨pA, pB⟩ ⟨pC, pD⟩) [Op.goal pA Pos.striker]
    st.winner = none ∧
    confirmWin st 60 =
      ⟨none, ⟨pA, pB⟩, ⟨pC, pD⟩, 1, 0, [⟨pA, Pos.striker, TeamKey.team1⟩],
        60⟩ ∧
    ((commitSummary exStore (confirmWin st 60)).1 "a").totalGames = 1 ∧
    ((commitSummary exStore (confirmWin st 60)).1 "a").gamesLost = 1 ∧
    ((commitSummary exStore (confirmWin st 60)).1 "a").gamesWon = 0 := by
  decide

/-- C7 (amended): `confirmWin` performs no transition check — from any
session state, declared winner or not, it emits the `MatchSummary` carrying
the current winner (possibly none), score and goal log; and the ledger
writer accepts a winner-less summary, charging all four participants a loss
and none a win.  Only the UI prevents this path, by rendering the confirm
control solely when a winner is declared. -/
theorem confirmWin_no_guard (st : GameState) (d : ℕ)
    (store : String → Player) (t1 t2 : TeamSlots) (s1 s2 : ℤ)
    (gh : List GoalEntry) (dur : ℕ)
    (hids :
      [t1.striker.id, t1.defender.id, t2.striker.id, t2.defender.id].Nodup) :
    ((confirmWin st d).winner = st.winner ∧
      (confirmWin st d).score1 = st.score1 ∧
      (confirmWin st d).score2 = st.score2 ∧
      (confirmWin st d).goalHistory = st.goalHistory) ∧
    (let st' := (handleGameEnd store none t1 t2 s1 s2 gh dur).1;
      (st' t1.striker.id).gamesLost = (store t1.striker.id).gamesLost + 1 ∧
      (st' t1.defender.id).gamesLost = (store t1.defender.id).gamesLost + 1 ∧
      (st' t2.striker.id).gamesLost = (store t2.striker.id).gamesLost + 1 ∧
      (st' t2.defender.id).gamesLost = (store t2.defender.id).gamesLost + 1 ∧
      (st' t1.striker.id).gamesWon = (store t1.striker.id).gamesWon ∧
      (st' t1.defender.id).gamesWon = (store t1.defender.id).gamesWon ∧
      (st' t2.striker.id).gamesWon = (store t2.striker.id).gamesWon ∧
      (st' t2.defender.id).gamesWon = (store t2.defender.id).gamesWon) := by
  simp only [List.nodup_cons, List.mem_cons, List.mem_singleton,
    List.not_mem_nil, or_false, not_or, List.nodup_nil, and_true] at hids
  obtain ⟨⟨hab, hac, had⟩, ⟨hbc, hbd⟩, hcd, -⟩ := hids
  refine ⟨⟨rfl, rfl, rfl, rfl⟩, ?_⟩
  refine ⟨?_, ?_, ?_, ?_, ?_, ?_, ?_, ?_⟩ <;>
    simp [handleGameEnd, updateStore, applyStats, hab, hac, had, hbc, hbd,
      hcd, Ne.symm hab, Ne.symm hac, Ne.symm had, Ne.symm hbc, Ne.symm hbd,
      Ne.symm hcd]

/-- C7 amended-claim witness at the concrete example store and a winner-less
one-goal summary. -/
theorem confirmWin_no_guard_witness :
    let st := runGame (initGame ⟨pA, pB⟩ ⟨pC, pD⟩) [Op.goal pA Pos.striker]
    let stc := (handleGameEnd exStore none ⟨pA, pB⟩ ⟨pC, pD⟩ 1 0
      [⟨pA, Pos.striker, TeamKey.team1⟩] 60).1
    (confirmWin st 60).winner = st.winner ∧
    (stc "a").gamesLost = (exStore "a").gamesLost + 1 ∧
    (stc "c").gamesWon = (exStore "c").gamesWon := by
  have h := confirmWin_no_guard
    (runGame (initGame ⟨pA, pB⟩ ⟨pC, pD⟩) [Op.goal pA Pos.striker]) 60
    exStore ⟨pA, pB⟩ ⟨pC, pD⟩ 1 0 [⟨pA, Pos.striker, TeamKey.team1⟩] 60
    (by decide)
  exact ⟨h.1.1, h.2.1, h.2.2.2.2.2.2.2.1⟩

/-- Commit-time store for the C4 witness: player `a`'s rating changed from
its match-start value 1500 to 1900 before the commit. -/
def c4Store : String → Player := fun id =>
  if id = "a" then { pA with score := 1900 } else exStore id

/-- C4: for every commit of a summary with a declared winner, the rating
deltas actually applied to the four player records are
`computeScoreChange` over the team averages of the ratings re-read from the
store at commit time; whenever that differs from the value over the
match-start averages (the ratings embedded in the summary's team objects),
the applied delta pair is not the match-start one. -/
theorem delta_uses_commit_time_ratings (store : String → Player)
    (tk : TeamKey) (t1 t2 : TeamSlots) (s1 s2 : ℤ) (gh : List GoalEntry)
    (dur : ℕ)
    (hids :
      [t1.striker.id, t1.defender.id, t2.striker.id, t2.defender.id].Nodup) :
    let winSlots := if tk = TeamKey.team1 then t1 else t2
    let loseSlots := if tk = TeamKey.team1 then t2 else t1
    let sh : Bool := (if tk = TeamKey.team1 then s2 else s1) = 0
    let commitD := computeScoreChange
      (teamAvg (store winSlots.striker.id) (store winSlots.defender.id))
      (teamAvg (store loseSlots.striker.id) (store loseSlots.defender.id)) sh
    let startD := computeScoreChange
      (teamAvg winSlots.striker winSlots.defender)
      (teamAvg loseSlots.striker loseSlots.defender) sh
    let st' := (handleGameEnd store (some tk) t1 t2 s1 s2 gh dur).1
    ((st' winSlots.striker.id).score =
        (store winSlots.striker.id).score + commitD.1 ∧
      (st' winSlots.defender.id).score =
        (store winSlots.defender.id).score + commitD.1 ∧
      (st' loseSlots.striker.id).score =
        (store loseSlots.striker.id).score - commitD.2 ∧
      (st' loseSlots.defender.id).score =
        (store loseSlots.defender.id).score - commitD.2) ∧
    (commitD ≠ startD →
      ((st' winSlots.striker.id).score - (store winSlots.striker.id).score,
        -((st' loseSlots.striker.id).score -
          (store loseSlots.striker.id).score)) ≠ startD) := by
  simp only [List.nodup_cons, List.mem_cons, List.mem_singleton,
    List.not_mem_nil, or_false, not_or, List.nodup_nil, and_true] at hids
  obtain ⟨⟨hab, hac, had⟩, ⟨hbc, hbd⟩, hcd, -⟩ := hids
  cases tk with
  | team1 =>
      refine ⟨⟨?_, ?_, ?_, ?_⟩, ?_⟩ <;>
        simp [handleGameEnd, updateStore, applyStats, hab, hac, had, hbc,
          hbd, hcd, Ne.symm hab, Ne.symm hac, Ne.symm had, Ne.symm hbc,
          Ne.symm hbd, Ne.symm hcd, sub_eq_add_neg]
  | team2 =>
      refine ⟨⟨?_, ?_, ?_, ?_⟩, ?_⟩ <;>
        simp [handleGameEnd, updateStore, applyStats, hab, hac, had, hbc,
          hbd, hcd, Ne.symm hab, Ne.symm hac, Ne.symm had, Ne.symm hbc,
          Ne.symm hbd, Ne.symm hcd, sub_eq_add_neg]

/-- C4 witness: player `a`'s rating moved from 1500 (match start) to 1900
(commit time); the applied deltas follow the commit-time averages and
differ from the match-start ones. -/
theorem delta_uses_commit_time_ratings_witness :
    let stc := (handleGameEnd c4Store (some TeamKey.team1) ⟨pA, pB⟩
      ⟨pC, pD⟩ 6 0 [] 7).1
    let commitD := computeScoreChange (teamAvg (c4Store "a") (c4Store "b"))
      (teamAvg (c4Store "c") (c4Store "d")) true
    let startD := computeScoreChange (teamAvg pA pB) (teamAvg pC pD) true
    (stc "a").score = (c4Store "a").score + commitD.1 ∧
    (stc "c").score = (c4Store "c").score - commitD.2 ∧
    ((stc "a").score - (c4Store "a").score,
      -((stc "c").score - (c4Store "c").score)) ≠ startD := by
  have ha : c4Store "a" = { pA with score := 1900 } := by decide
  have hb : c4Store "b" = pB := by decide
  have hc : c4Store "c" = pC := by decide
  have hd : c4Store "d" = pD := by decide
  have hne : computeScoreChange (teamAvg (c4Store "a") (c4Store "b"))
      (teamAvg (c4Store "c") (c4Store "d")) true ≠
      computeScoreChange (teamAvg pA pB) (teamAvg pC pD) true := by
    rw [ha, hb, hc, hd]
    norm_num [computeScoreChange, teamAvg, jsRound, clamp, pA, pB, pC, pD,
      handleAddPlayer]
  have h := delta_uses_commit_time_ratings c4Store TeamKey.team1 ⟨pA, pB⟩
    ⟨pC, pD⟩ 6 0 [] 7 (by decide)
  exact ⟨h.1.1, h.1.2.2.1, h.2 hne⟩

/-! Helper lemmas for the win/loss counter invariant. -/

/-- One ledger update bumps `totalGames` by one and exactly one of
`gamesWon`/`gamesLost` by one. -/
theorem applyStats_counters (p : Player) (b : Bool) (pos : Pos) (g : ℕ)
    (wd ld : ℤ) (sh : Bool) (d : ℕ) :
    (applyStats p b pos g wd ld sh d).totalGames = p.totalGames + 1 ∧
    (((applyStats p b pos g wd ld sh d).gamesWon = p.gamesWon + 1 ∧
       (applyStats p b pos g wd ld sh d).gamesLost = p.gamesLost) ∨
      ((applyStats p b pos g wd ld sh d).gamesWon = p.gamesWon ∧
       (applyStats p b pos g wd ld sh d).gamesLost = p.gamesLost + 1)) := by
  cases b <;> cases pos <;> simp [applyStats]

/-- The shutout flag `handleGameEnd` computes: the losing side's final
score is zero (lines 790–791). -/
def commitShutout (winner : Option TeamKey) (s1 s2 : ℤ) : Bool :=
  (if winner = some TeamKey.team1 then s2 else s1) = 0

/-- The delta pair `handleGameEnd` computes from the freshly read ratings
(lines 811–813). -/
def commitDelta (store : String → Player) (winner : Option TeamKey)
    (t1 t2 : TeamSlots) (s1 s2 : ℤ) : ℤ × ℤ :=
  computeScoreChange
    (if winner = some TeamKey.team1 then
      teamAvg (store t1.striker.id) (store t1.defender.id)
     else teamAvg (store t2.striker.id) (store t2.defender.id))
    (if winner = some TeamKey.team1 then
      teamAvg (store t2.striker.id) (store t2.defender.id)
     else teamAvg (store t1.striker.id) (store t1.defender.id))
    (commitShutout winner s1 s2)

/-- The committed store is `applyStats` at each participant (with the slot
positions of the end-of-match team objects and the common deltas) and is
untouched at every other id. -/
theorem handleGameEnd_shape (store : String → Player) (winner : Option TeamKey)
    (t1 t2 : TeamSlots) (s1 s2 : ℤ) (gh : List GoalEntry) (dur : ℕ)
    (hids :
      [t1.striker.id, t1.defender.id, t2.striker.id, t2.defender.id].Nodup) :
    let st' := (handleGameEnd store winner t1 t2 s1 s2 gh dur).1
    let d := commitDelta store winner t1 t2 s1 s2
    let sh := commitShutout winner s1 s2
    st' t1.striker.id = applyStats (store t1.striker.id)
      (winner = some TeamKey.team1) Pos.striker
      (goalsByPlayer gh t1.striker.id) d.1 d.2 sh dur ∧
    st' t1.defender.id = applyStats (store t1.defender.id)
      (winner = some TeamKey.team1) Pos.defender
      (goalsByPlayer gh t1.defender.id) d.1 d.2 sh dur ∧
    st' t2.striker.id = applyStats (store t2.striker.id)
      (winner = some TeamKey.team2) Pos.striker
      (goalsByPlayer gh t2.striker.id) d.1 d.2 sh dur ∧
    st' t2.defender.id = applyStats (store t2.defender.id)
      (winner = some TeamKey.team2) Pos.defender
      (goalsByPlayer gh t2.defender.id) d.1 d.2 sh dur ∧
    ∀ pid, pid ∉ [t1.striker.id, t1.defender.id, t2.striker.id,
      t2.defender.id] → st' pid = store pid := by
  simp only [List.nodup_cons, List.mem_cons, List.mem_singleton,
    List.not_mem_nil, or_false, not_or, List.nodup_nil, and_true] at hids
  obtain ⟨⟨hab, hac, had⟩, ⟨hbc, hbd⟩, hcd, -⟩ := hids
  refine ⟨?_, ?_, ?_, ?_, ?_⟩
  · simp [handleGameEnd, commitDelta, commitShutout, updateStore, hab, hac,
      had, Ne.symm hab, Ne.symm hac, Ne.symm had]
  · simp [handleGameEnd, commitDelta, commitShutout, updateStore, hab, hbc,
      hbd, Ne.symm hab, Ne.symm hbc, Ne.symm hbd]
  · simp [handleGameEnd, commitDelta, commitShutout, updateStore, hac, hbc,
      hcd, Ne.symm hac, Ne.symm hbc, Ne.symm hcd]
  · simp [handleGameEnd, commitDelta, commitShutout, updateStore, had, hbd,
      hcd, Ne.symm had, Ne.symm hbd, Ne.symm hcd]
  · intro pid hpid
    simp only [List.mem_cons, List.mem_singleton, List.not_mem_nil,
      or_false, not_or] at hpid
    obtain ⟨h1, h2, h3, h4⟩ := hpid
    simp [handleGameEnd, updateStore, h1, h2, h3, h4]

/-- Per-player view of the three counters season closure must preserve. -/
def countersMap (ps : List Player) : List (ℕ × ℕ × ℕ) :=
  ps.map fun p => (p.totalGames, p.gamesWon, p.gamesLost)

theorem countersMap_closeSeason (sst : SeasonState) (fa : Option ℕ) :
    countersMap (handleCloseSeason sst fa).players =
      countersMap sst.players := by
  cases hw : (sortByScoreDesc sst.players).head? with
  | none => simp [handleCloseSeason, hw]
  | some w =>
      simp only [handleCloseSeason, hw]
      split_ifs <;>
        simp only [seasonAppendHistory, seasonBumpWinner,
          seasonResetScores, seasonAdvanceCounter, countersMap,
          List.map_map] <;>
        first
          | rfl
          | (apply List.map_congr_left;
             intro p _;
             simp only [Function.comp];
             split_ifs <;> rfl)

/-- C9: players are created with `totalGames = gamesWon = gamesLost = 0`;
every ledger commit adds exactly 1 to `totalGames` and exactly 1 to exactly
one of `gamesWon`/`gamesLost` for each of the four participants and leaves
every other record untouched, so `totalGames = gamesWon + gamesLost` is
preserved across commits; and season closure (the only other core writer)
never changes these three counters. -/
theorem total_games_invariant (store : String → Player)
    (winner : Option TeamKey) (t1 t2 : TeamSlots) (s1 s2 : ℤ)
    (gh : List GoalEntry) (dur : ℕ)
    (hids :
      [t1.striker.id, t1.defender.id, t2.striker.id, t2.defender.id].Nodup) :
    let st' := (handleGameEnd store winner t1 t2 s1 s2 gh dur).1
    (∀ id fn ln, (handleAddPlayer id fn ln).totalGames = 0 ∧
      (handleAddPlayer id fn ln).gamesWon = 0 ∧
      (handleAddPlayer id fn ln).gamesLost = 0) ∧
    (∀ pid ∈ [t1.striker.id, t1.defender.id, t2.striker.id, t2.defender.id],
      (st' pid).totalGames = (store pid).totalGames + 1 ∧
      (((st' pid).gamesWon = (store pid).gamesWon + 1 ∧
         (st' pid).gamesLost = (store pid).gamesLost) ∨
        ((st' pid).gamesWon = (store pid).gamesWon ∧
         (st' pid).gamesLost = (store pid).gamesLost + 1))) ∧
    (∀ pid, pid ∉ [t1.striker.id, t1.defender.id, t2.striker.id,
      t2.defender.id] → st' pid = store pid) ∧
    ((∀ pid, (store pid).totalGames =
        (store pid).gamesWon + (store pid).gamesLost) →
      ∀ pid, (st' pid).totalGames =
        (st' pid).gamesWon + (st' pid).gamesLost) ∧
    (∀ sst fa, countersMap (handleCloseSeason sst fa).players =
      countersMap sst.players) := by
  obtain ⟨h1, h2, h3, h4, h5⟩ :=
    handleGameEnd_shape store winner t1 t2 s1 s2 gh dur hids
  refine ⟨fun id fn ln => by simp [handleAddPlayer], ?_, h5, ?_,
    countersMap_closeSeason⟩
  · intro pid hpid
    simp only [List.mem_cons, List.mem_singleton, List.not_mem_nil,
      or_false] at hpid
    rcases hpid with h | h | h | h <;> rw [h]
    · rw [h1]
      exact applyStats_counters _ _ _ _ _ _ _ _
    · rw [h2]
      exact applyStats_counters _ _ _ _ _ _ _ _
    · rw [h3]
      exact applyStats_counters _ _ _ _ _ _ _ _
    · rw [h4]
      exact applyStats_counters _ _ _ _ _ _ _ _
  · intro hinv pid
    by_cases hmem : pid ∈ [t1.striker.id, t1.defender.id, t2.striker.id,
      t2.defender.id]
    · simp only [List.mem_cons, List.mem_singleton, List.not_mem_nil,
        or_false] at hmem
      have hinvp := hinv pid
      rcases hmem with h | h | h | h <;> rw [h] at hinvp ⊢
      · obtain ⟨ht, hor⟩ := h1 ▸ applyStats_counters (store t1.striker.id)
          (winner = some TeamKey.team1) Pos.striker
          (goalsByPlayer gh t1.striker.id) _ _ _ dur
        rw [h1]
        rcases hor with ⟨hw, hl⟩ | ⟨hw, hl⟩ <;>
          rw [h1] at ht hw hl <;> omega
      · obtain ⟨ht, hor⟩ := h2 ▸ applyStats_counters (store t1.defender.id)
          (winner = some TeamKey.team1) Pos.defender
          (goalsByPlayer gh t1.defender.id) _ _ _ dur
        rw [h2]
        rcases hor with ⟨hw, hl⟩ | ⟨hw, hl⟩ <;>
          rw [h2] at ht hw hl <;> omega
      · obtain ⟨ht, hor⟩ := h3 ▸ applyStats_counters (store t2.striker.id)
          (winner = some TeamKey.team2) Pos.striker
          (goalsByPlayer gh t2.striker.id) _ _ _ dur
        rw [h3]
        rcases hor with ⟨hw, hl⟩ | ⟨hw, hl⟩ <;>
          rw [h3] at ht hw hl <;> omega
      · obtain ⟨ht, hor⟩ := h4 ▸ applyStats_counters (store t2.defender.id)
          (winner = some TeamKey.team2) Pos.defender
          (goalsByPlayer gh t2.defender.id) _ _ _ dur
        rw [h4]
        rcases hor with ⟨hw, hl⟩ | ⟨hw, hl⟩ <;>
          rw [h4] at ht hw hl <;> omega
    · rw [h5 pid hmem]
      exact hinv pid

/-- C9 witness: committing a 6:0 team-1 win over the example store bumps
player `a`'s `totalGames` by one and preserves the
`totalGames = gamesWon + gamesLost` invariant. -/
theorem total_games_invariant_witness :
    let stc := (handleGameEnd exStore (some TeamKey.team1) ⟨pA, pB⟩
      ⟨pC, pD⟩ 6 0 [] 60).1
    (stc "a").totalGames = (exStore "a").totalGames + 1 ∧
    (stc "a").totalGames = (stc "a").gamesWon + (stc "a").gamesLost := by
  have h := total_games_invariant exStore (some TeamKey.team1) ⟨pA, pB⟩
    ⟨pC, pD⟩ 6 0 [] 60 (by decide)
  have hinv : ∀ pid, (exStore pid).totalGames =
      (exStore pid).gamesWon + (exStore pid).gamesLost := by
    intro pid
    unfold exStore
    split_ifs <;> rfl
  exact ⟨(h.2.1 "a" (by decide)).1, h.2.2.2.1 hinv "a"⟩

/-! Helper lemmas about the season closure sequence. -/

theorem insertByScore_length (p : Player) (l : List Player) :
    (insertByScore p l).length = l.length + 1 := by
  induction l with
  | nil => rfl
  | cons q qs ih =>
      simp only [insertByScore]
      split_ifs <;> simp [ih]

theorem sortByScoreDesc_length (ps : List Player) :
    (sortByScoreDesc ps).length = ps.length := by
  induction ps with
  | nil => rfl
  | cons p ps ih => simp [sortByScoreDesc, List.foldr_cons, insertByScore_length]
                    simpa [sortByScoreDesc] using ih

theorem sortByScoreDesc_eq_nil_iff (ps : List Player) :
    sortByScoreDesc ps = [] ↔ ps = [] := by
  constructor
  · intro h
    have := sortByScoreDesc_length ps
    rw [h] at this
    exact List.length_eq_zero.mp this.symm
  · intro h
    subst h
    rfl

theorem stepOk_mono {f : Option ℕ} {i j : ℕ} (hij : i ≤ j)
    (hj : stepOk f j = true) : stepOk f i = true := by
  cases f with
  | none => rfl
  | some k =>
      simp only [stepOk, decide_eq_true_eq] at hj ⊢
      omega

theorem closeSeason_none (st : SeasonState) (f : Option ℕ)
    (hw : (sortByScoreDesc st.players).head? = none) :
    handleCloseSeason st f = st := by
  simp [handleCloseSeason, hw]

theorem closeSeason_history_some (st : SeasonState) (f : Option ℕ)
    (w : Player) (hw : (sortByScoreDesc st.players).head? = some w) :
    (handleCloseSeason st f).history =
      (if stepOk f 0 then st.history ++
        [⟨st.currentSeason, w.firstName ++ " " ++ w.lastName, w.id⟩]
       else st.history) := by
  simp only [handleCloseSeason, hw]
  split_ifs <;>
    simp [seasonAppendHistory, seasonBumpWinner, seasonResetScores,
      seasonAdvanceCounter]

theorem closeSeason_season_some (st : SeasonState) (f : Option ℕ)
    (w : Player) (hw : (sortByScoreDesc st.players).head? = some w) :
    (handleCloseSeason st f).currentSeason =
      (if stepOk f 3 then
        (if st.currentSeason = 0 then 1 else st.currentSeason) + 1
       else st.currentSeason) := by
  simp only [handleCloseSeason, hw]
  split_ifs <;>
    simp_all [seasonAppendHistory, seasonBumpWinner, seasonResetScores,
      seasonAdvanceCounter]

theorem closeSeason_scores_some (st : SeasonState) (f : Option ℕ)
    (w : Player) (hw : (sortByScoreDesc st.players).head? = some w) :
    (handleCloseSeason st f).players.map (fun p => p.score) =
      (if stepOk f 2 then st.players.map (fun _ => (1500 : ℤ))
       else st.players.map (fun p => p.score)) := by
  simp only [handleCloseSeason, hw]
  split_ifs <;>
    simp only [seasonAppendHistory, seasonBumpWinner, seasonResetScores,
      seasonAdvanceCounter, List.map_map] <;>
    first
      | rfl
      | (apply List.map_congr_left;
         intro p _;
         simp only [Function.comp];
         split_ifs <;> rfl)

/-- Top-rated example player (rating above baseline) for season fixtures. -/
def qA : Player := { pA with score := 1600 }

/-- Lower-rated example player (rating below baseline) for season fixtures. -/
def qB : Player := { pB with score := 1400 }

/-- Example pre-closure season state: two players, empty history, season 3. -/
def c2St : SeasonState := ⟨[qA, qB], [], 3⟩

/-- C2 counterexample: when the second await of `handleCloseSeason` (the
title increment) fails, the already-performed history append persists while
the title increment, the rating reset and the season-counter increment do
not — the persisted state shows some but not all of the four effects, so
closure is not all-or-nothing. -/
theorem closeSeason_midway_failure :
    let st' := handleCloseSeason c2St (some 1)
    st'.history.length = c2St.history.length + 1 ∧
    st'.players.map (fun p => p.score) = [1600, 1400] ∧
    st'.players.map (fun p => p.seasonsWon) = [0, 0] ∧
    st'.currentSeason = c2St.currentSeason := by
  decide

/-- C2 (amended): the four closure effects are separate sequential awaits
sharing one catch, so a failure at await `f` persists exactly the effects
of the earlier awaits.  Because the history append comes first and the
counter increment last, the season counter never advances without the
history record and ratings are never reset without the history record; but
the history record can persist without the later effects.  Without a
failure, all four effects apply. -/
theorem closeSeason_sequential (st : SeasonState) (f : Option ℕ) :
    let st' := handleCloseSeason st f
    (st'.currentSeason ≠ st.currentSeason →
      st'.history.length = st.history.length + 1) ∧
    (st'.players.map (fun p => p.score) ≠ st.players.map (fun p => p.score) →
      st'.history.length = st.history.length + 1) ∧
    (f = none → st.players ≠ [] →
      st'.history.length = st.history.length + 1 ∧
      (∀ p ∈ st'.players, p.score = 1500) ∧
      st'.currentSeason =
        (if st.currentSeason = 0 then 1 else st.currentSeason) + 1) := by
  cases hw : (sortByScoreDesc st.players).head? with
  | none =>
      have hst := closeSeason_none st f hw
      have hnil : st.players = [] :=
        (sortByScoreDesc_eq_nil_iff st.players).mp
          (List.head?_eq_none_iff.mp hw)
      refine ⟨fun hne => absurd (by rw [hst]) hne,
        fun hne => absurd (by rw [hst]) hne,
        fun _ hne => absurd hnil hne⟩
  | some w =>
      have hh := closeSeason_history_some st f w hw
      have hs := closeSeason_season_some st f w hw
      have hsc := closeSeason_scores_some st f w hw
      refine ⟨?_, ?_, ?_⟩
      · intro hne
        by_cases h3 : stepOk f 3 = true
        · have h0 : stepOk f 0 = true := stepOk_mono (by omega) h3
          rw [hh, if_pos h0]
          simp
        · rw [hs, if_neg h3] at hne
          exact absurd rfl hne
      · intro hne
        by_cases h2 : stepOk f 2 = true
        · have h0 : stepOk f 0 = true := stepOk_mono (by omega) h2
          rw [hh, if_pos h0]
          simp
        · rw [hsc, if_neg h2] at hne
          exact absurd rfl hne
      · intro hf _
        subst hf
        have hok : ∀ k, stepOk none k = true := fun _ => rfl
        refine ⟨by rw [hh, if_pos (hok 0)]; simp, ?_,
          by rw [hs, if_pos (hok 3)]⟩
        intro p hp
        have hmem : p.score ∈
            (handleCloseSeason st none).players.map (fun p => p.score) :=
          List.mem_map_of_mem _ hp
        rw [hsc, if_pos (hok 2)] at hmem
        simp only [List.mem_map] at hmem
        obtain ⟨q, -, hq⟩ := hmem
        exact hq.symm

/-- C2 amended-claim witness: closing the example season with no failure
appends the history record, resets both ratings and advances the counter
from 3 to 4. -/
theorem closeSeason_sequential_witness :
    (handleCloseSeason c2St none).history.length = c2St.history.length + 1 ∧
    (∀ p ∈ (handleCloseSeason c2St none).players, p.score = 1500) ∧
    (handleCloseSeason c2St none).currentSeason = 4 := by
  have h := (closeSeason_sequential c2St none).2.2 rfl (by decide)
  exact ⟨h.1, h.2.1, by simpa using h.2.2⟩

theorem mem_insertByScore {x p : Player} {l : List Player} :
    x ∈ insertByScore p l ↔ x = p ∨ x ∈ l := by
  induction l with
  | nil => simp [insertByScore]
  | cons q qs ih =>
      simp only [insertByScore]
      split_ifs with h
      · simp [List.mem_cons]
      · simp only [List.mem_cons, ih]
        tauto

theorem mem_sortByScoreDesc {x : Player} {ps : List Player} :
    x ∈ sortByScoreDesc ps ↔ x ∈ ps := by
  induction ps with
  | nil => simp [sortByScoreDesc]
  | cons p ps ih =>
      show x ∈ insertByScore p (sortByScoreDesc ps) ↔ _
      rw [mem_insertByScore]
      simp only [List.mem_cons, ih]

theorem mem_of_head? {l : List Player} {w : Player} (hw : l.head? = some w) :
    w ∈ l := by
  cases l with
  | nil => simp at hw
  | cons a l =>
      simp only [List.head?_cons, Option.some.injEq] at hw
      subst hw
      exact List.mem_cons_self _ _

/-- The head of the descending sort has a maximal rating. -/
theorem sortByScoreDesc_head_max (ps : List Player) (w : Player)
    (hw : (sortByScoreDesc ps).head? = some w) :
    ∀ q ∈ ps, q.score ≤ w.score := by
  induction ps generalizing w with
  | nil => simp [sortByScoreDesc] at hw
  | cons p ps ih =>
      have hrw : sortByScoreDesc (p :: ps) =
          insertByScore p (sortByScoreDesc ps) := rfl
      cases hl : sortByScoreDesc ps with
      | nil =>
          have hps : ps = [] := (sortByScoreDesc_eq_nil_iff ps).mp hl
          rw [hrw, hl] at hw
          simp only [insertByScore, List.head?_cons, Option.some.injEq] at hw
          subst hw
          subst hps
          intro q hq
          simp only [List.mem_singleton] at hq
          subst hq
          exact le_refl _
      | cons r rs =>
          have hr : (sortByScoreDesc ps).head? = some r := by
            rw [hl]
            rfl
          rw [hrw, hl] at hw
          by_cases h : r.score < p.score
          · rw [insertByScore, if_pos h] at hw
            simp only [List.head?_cons, Option.some.injEq] at hw
            subst hw
            intro q hq
            rcases List.mem_cons.mp hq with hq | hq
            · subst hq
              exact le_refl _
            · exact le_of_lt (lt_of_le_of_lt (ih r hr q hq) h)
          · rw [insertByScore, if_neg h] at hw
            simp only [List.head?_cons, Option.some.injEq] at hw
            subst hw
            intro q hq
            rcases List.mem_cons.mp hq with hq | hq
            · subst hq
              exact not_lt.mp h
            · exact ih r hr q hq

theorem countP_id_eq_count_map (l : List Player) (x : String) :
    l.countP (fun p => p.id = x) = (l.map fun p => p.id).count x := by
  induction l with
  | nil => rfl
  | cons p l ih =>
      simp only [List.countP_cons, List.map_cons, List.count_cons, ih]
      by_cases h : p.id = x <;> simp [h]

/-- C8: for every non-empty player set (with the unique document ids
Firestore guarantees) and season counter ≥ 1, a fully successful closure
picks the top-rated player as winner, increments exactly that player's
title counter by 1, resets every rating to 1500 while leaving all other
counters and fields unchanged, appends one SeasonRecord with the closing
season number and the winner's id and frozen name, and advances the season
counter by exactly 1. -/
theorem season_closure_effects (st : SeasonState)
    (hne : st.players ≠ [])
    (hnd : (st.players.map fun p => p.id).Nodup)
    (hs : 1 ≤ st.currentSeason) :
    ∃ w, (sortByScoreDesc st.players).head? = some w ∧
      w ∈ st.players ∧
      (∀ q ∈ st.players, q.score ≤ w.score) ∧
      st.players.countP (fun p => p.id = w.id) = 1 ∧
      (let st' := handleCloseSeason st none
       (∀ p ∈ st'.players, p.score = 1500) ∧
       List.Forall₂ (fun p p' =>
         p'.seasonsWon = p.seasonsWon + (if p.id = w.id then 1 else 0) ∧
         p'.id = p.id ∧ p'.firstName = p.firstName ∧
         p'.lastName = p.lastName ∧ p'.gamesWon = p.gamesWon ∧
         p'.gamesLost = p.gamesLost ∧
         p'.gamesAsStriker = p.gamesAsStriker ∧
         p'.gamesAsDefender = p.gamesAsDefender ∧
         p'.totalGames = p.totalGames ∧
         p'.goalsAsStriker = p.goalsAsStriker ∧
         p'.goalsAsDefender = p.goalsAsDefender ∧
         p'.shutoutWins = p.shutoutWins ∧
         p'.totalPlaytime = p.totalPlaytime) st.players st'.players ∧
       st'.history = st.history ++
         [⟨st.currentSeason, w.firstName ++ " " ++ w.lastName, w.id⟩] ∧
       st'.currentSeason = st.currentSeason + 1) := by
  cases hw : (sortByScoreDesc st.players).head? with
  | none =>
      exact absurd ((sortByScoreDesc_eq_nil_iff _).mp
        (List.head?_eq_none_iff.mp hw)) hne
  | some w =>
      have hwmem : w ∈ st.players := mem_sortByScoreDesc.mp (mem_of_head? hw)
      have hst' : handleCloseSeason st none =
          seasonAdvanceCounter (seasonResetScores
            (seasonBumpWinner w (seasonAppendHistory w st))) := by
        simp [handleCloseSeason, hw, stepOk]
      refine ⟨w, rfl, hwmem, sortByScoreDesc_head_max st.players w hw, ?_,
        ?_, ?_, ?_, ?_⟩
      · rw [countP_id_eq_count_map]
        exact List.count_eq_one_of_mem hnd (List.mem_map_of_mem _ hwmem)
      · intro p hp
        rw [hst'] at hp
        simp only [seasonAdvanceCounter, seasonResetScores,
          seasonBumpWinner, seasonAppendHistory, List.mem_map] at hp
        obtain ⟨q, -, hq⟩ := hp
        rw [← hq]
      · rw [hst']
        simp only [seasonAdvanceCounter, seasonResetScores,
          seasonBumpWinner, seasonAppendHistory, List.map_map]
        rw [List.forall₂_map_right_iff, List.forall₂_same]
        intro p hp
        by_cases hid : p.id = w.id
        · have hpw : p = w := List.inj_on_of_nodup_map hnd hp hwmem hid
          subst hpw
          simp [Function.comp, hid]
        · simp [Function.comp, hid]
      · rw [hst']
        simp [seasonAdvanceCounter, seasonResetScores, seasonBumpWinner,
          seasonAppendHistory]
      · rw [hst']
        simp only [seasonAdvanceCounter, seasonResetScores,
          seasonBumpWinner, seasonAppendHistory]
        have h0 : ¬st.currentSeason = 0 := by omega
        rw [if_neg h0]

/-- C8 witness: closing the two-player example season appends the record
for the top-rated player `qA` and advances the counter from 3 to 4. -/
theorem season_closure_effects_witness :
    (handleCloseSeason c2St none).history = c2St.history ++
      [⟨c2St.currentSeason, qA.firstName ++ " " ++ qA.lastName, qA.id⟩] ∧
    (handleCloseSeason c2St none).currentSeason = c2St.currentSeason + 1 := by
  obtain ⟨w, hw, -, -, -, -, -, hhist, hseason⟩ :=
    season_closure_effects c2St (by decide) (by decide) (by decide)
  have hwa : w = qA := by
    have h2 : (sortByScoreDesc c2St.players).head? = some qA := by decide
    rw [h2] at hw
    exact (Option.some_inj.mp hw).symm
  subst hwa
  exact ⟨hhist, hseason⟩

end Kicker
